import Mathlib

/-!
Verification of the varint/zigzag codec, allocation guard and container
writer of this repository (src/src/util.rs and src/src/ser/writer.rs).

Machine integers are embedded as natural-number bit patterns:
an i64 (or u64) value is the Nat in [0, 2^64) whose binary digits are the
two's-complement bits of the value, an i32 likewise in [0, 2^32), and a
byte is a Nat below 256.  Signed comparisons and arithmetic shifts are
spelled out on the bit pattern.
-/

deriving instance DecidableEq for Except

/-- Signed value of an i64 bit pattern (two's complement reading). -/
def sval64 (b : Nat) : Int :=
  if b < 2 ^ 63 then (b : Int) else (b : Int) - 2 ^ 64

/-- One step budget is enough for 64-bit inputs: the loop in
encode_variable recurses only while the value is in (0x7F, 2^63), and
dividing by 128 reaches 0x7F in at most nine steps from there, so the
fuel of encVar is never exhausted for bit patterns below 2^64. -/
def encVar : Nat → Nat → List Nat
  | 0, z => [z % 0x80]
  | fuel + 1, z =>
    if z ≤ 0x7F ∨ 2 ^ 63 ≤ z then [z % 0x80]
    else (0x80 + z % 0x80) :: encVar fuel (z / 0x80)

/-- Embedding of util.rs encode_variable (lines 92-102).  The Rust loop
takes a SIGNED i64 z: the test z <= 0x7F is a signed comparison, so on a
bit pattern it holds when z ≤ 0x7F or 2^63 ≤ z (negative); the byte
pushed is z & 0x7F = z % 0x80, the continuation byte is 0x80 | (z & 0x7F),
and z >>= 7 is an arithmetic shift, which in the branch where it runs
(0x7F < z < 2^63) is plain division by 0x80. -/
def encode_variable (z : Nat) : List Nat :=
  encVar 10 z

/-- Embedding of util.rs zig_i64 (lines 70-72): encode_variable applied to
the i64 bit pattern of (n << 1) ^ (n >> 63); n << 1 drops the top bit and
n >> 63 is an arithmetic shift, all-zeros for nonnegative n and all-ones
for negative n. -/
def zig_i64 (n : Nat) : List Nat :=
  encode_variable (Nat.xor (2 * n % 2 ^ 64) (if n < 2 ^ 63 then 0 else 2 ^ 64 - 1))

/-- Embedding of util.rs zig_i32 (lines 66-68): the zigzag value is
computed in i32 arithmetic ((n << 1) ^ (n >> 31) on the 32-bit pattern),
then sign-extended by i64::from before encode_variable. -/
def zig_i32 (n : Nat) : List Nat :=
  let v := Nat.xor (2 * n % 2 ^ 32) (if n < 2 ^ 31 then 0 else 2 ^ 32 - 1)
  encode_variable (if v < 2 ^ 31 then v else v + (2 ^ 64 - 2 ^ 32))

/-- Errors of the decoding primitives: eof models the io error returned by
read_exact on an exhausted reader, overflow the DecodeError with message
"Overflow when decoding integer value" (util.rs line 112), and outOfRange
the DecodeError with message "int out of range" (util.rs line 77). -/
inductive DecodeErr : Type
  | eof : DecodeErr
  | overflow : DecodeErr
  | outOfRange : DecodeErr
deriving DecidableEq, Repr

/-- Loop of util.rs decode_variable (lines 104-124), with accumulator i,
group index j and the remaining input bytes.  The overflow guard j > 9 is
checked before each read; the read byte contributes (b & 0x7F) << (j * 7)
on u64, i.e. masked to 2^64, or-ed into the accumulator; a clear
continuation bit (b >> 7 == 0, i.e. b / 0x80 == 0) ends the loop. -/
def decVarGo : Nat → Nat → List Nat → Except DecodeErr Nat
  | _, j, [] =>
    if 9 < j then Except.error DecodeErr.overflow else Except.error DecodeErr.eof
  | i, j, b :: rest =>
    if 9 < j then Except.error DecodeErr.overflow
    else
      if b / 0x80 = 0 then Except.ok (Nat.lor i (b % 0x80 * 2 ^ (j * 7) % 2 ^ 64))
      else decVarGo (Nat.lor i (b % 0x80 * 2 ^ (j * 7) % 2 ^ 64)) (j + 1) rest

/-- Embedding of util.rs decode_variable (lines 104-124): the reader is the
list of bytes still unread; returns the decoded u64 bit pattern. -/
def decode_variable (bs : List Nat) : Except DecodeErr Nat :=
  decVarGo 0 0 bs

/-- Embedding of util.rs zag_i64 (lines 83-90): decode_variable, then undo
zigzag on the u64 z; z >> 1 is a logical shift (z / 2) and !(z >> 1) is
the 64-bit complement; the result is the i64 bit pattern returned. -/
def zag_i64 (bs : List Nat) : Except DecodeErr Nat :=
  match decode_variable bs with
  | Except.error e => Except.error e
  | Except.ok z =>
    Except.ok (if z % 2 = 0 then z / 2 else 2 ^ 64 - 1 - z / 2)

/-- Embedding of util.rs zag_i32 (lines 74-81): zag_i64, then a signed
range check against the i32 bounds, then truncation (i as i32) to the low
32 bits of the bit pattern. -/
def zag_i32 (bs : List Nat) : Except DecodeErr Nat :=
  match zag_i64 bs with
  | Except.error e => Except.error e
  | Except.ok b =>
    if sval64 b < -(2 ^ 31 : Int) ∨ (2 ^ 31 - 1 : Int) < sval64 b then
      Except.error DecodeErr.outOfRange
    else Except.ok (b % 2 ^ 32)

/-- Default allocation ceiling, util.rs line 11: 512 MiB. -/
def MAX_ALLOCATION_BYTES_DEFAULT : Nat := 512 * 1024 * 1024

/-- Data carried by the AllocationError of util.rs lines 148-151: the
message formats the requested length and the ceiling. -/
structure AllocErr : Type where
  requested : Nat
  maximum : Nat
deriving DecidableEq, Repr

/-- Embedding of util.rs max_allocation_bytes (lines 133-140).  The Once
plus static-mut pair is made explicit: the state is none while the Once
has not fired and some m once the ceiling m is installed.  call_once
installs the argument only from the none state; the installed value is
returned either way. -/
def max_allocation_bytes (num_bytes : Nat) (st : Option Nat) : Nat × Option Nat :=
  match st with
  | none => (num_bytes, some num_bytes)
  | some m => (m, some m)

/-- Embedding of util.rs safe_len (lines 142-153): consult (and on first
use install) the ceiling with the default as argument, then either pass
len through or fail with the lengths in the error. -/
def safe_len (len : Nat) (st : Option Nat) : Except AllocErr Nat × Option Nat :=
  let p := max_allocation_bytes MAX_ALLOCATION_BYTES_DEFAULT st
  (if len ≤ p.1 then Except.ok len else Except.error ⟨len, p.1⟩, p.2)

/-- Effective ceiling read off the guard state: the installed value, or
the default while nothing is installed. -/
def ceilingOf : Option Nat → Nat
  | none => MAX_ALLOCATION_BYTES_DEFAULT
  | some m => m

namespace Avro

/-- Errors surfaced by Writer::extend (ser/writer.rs lines 98-110): ser
wraps a serializer failure propagated by the question mark on line 108,
mismatch is the err_msg value on line 106 (and in append_raw, line 76),
and codec wraps a compression failure from line 115. -/
inductive WriterErr (E : Type) : Type
  | ser : E → WriterErr E
  | mismatch : WriterErr E
  | codec : E → WriterErr E
deriving DecidableEq, Repr

/-- Immutable part of the Writer of ser/writer.rs (lines 17-24): the
schema-bound serializer, the schema encoder, the compression codec and
the three byte sequences the header is assembled from.  The collaborators
are parameters, per the contracts of spec section 6: serialize may fail
with a serializer error, encode returns none on a schema mismatch,
compress may fail with a codec error.  headerMagic and headerMeta are
the encoded magic fixed value and metadata map of header (lines 52-59);
their byte content is produced by the schema encoder and serde_json,
which are outside src/, so they stay abstract here.  marker is the
16-byte sync marker drawn at construction (lines 32-35). -/
structure Writer (S V E : Type) : Type where
  serialize : S → Except E V
  encode : V → Option (List Nat)
  compress : List Nat → Except E (List Nat)
  headerMagic : List Nat
  headerMeta : List Nat
  marker : List Nat

/-- Mutable part of the Writer: the has_header flag (ser/writer.rs line
23) and the bytes accumulated in the destination sink. -/
structure WriterState : Type where
  has_header : Bool
  sink : List Nat
deriving DecidableEq, Repr

/-- Bytes emitted by Writer::header (ser/writer.rs lines 51-61): the
magic, the metadata map, then the marker. -/
def Writer.headerBytes {S V E : Type} (cfg : Writer S V E) : List Nat :=
  cfg.headerMagic ++ cfg.headerMeta ++ cfg.marker

/-- Embedding of Writer::header (ser/writer.rs lines 51-61): appends the
header bytes to the sink and returns their count.  It does not touch the
has_header flag. -/
def Writer.header {S V E : Type} (cfg : Writer S V E) (st : WriterState) :
    Nat × WriterState :=
  ((Writer.headerBytes cfg).length, { st with sink := st.sink ++ Writer.headerBytes cfg })

/-- Loop of Writer::extend (ser/writer.rs lines 98-110): serialize and
schema-encode each value in order, collecting the per-value byte streams;
the first serializer failure or encode mismatch aborts with an error. -/
def Writer.encodeValues {S V E : Type} (cfg : Writer S V E) :
    List S → Except (WriterErr E) (List (List Nat))
  | [] => Except.ok []
  | x :: xs =>
    match cfg.serialize x with
    | Except.error e => Except.error (WriterErr.ser e)
    | Except.ok s =>
      match cfg.encode s with
      | none => Except.error WriterErr.mismatch
      | some stream =>
        match Writer.encodeValues cfg xs with
        | Except.error e => Except.error e
        | Except.ok rest => Except.ok (stream :: rest)

/-- Fold of ser/writer.rs lines 112-113: concatenate the per-value
streams in order. -/
def concatStreams (v : List (List Nat)) : List Nat :=
  v.foldl (fun acc s => acc ++ s) []

/-- Modelled from the spec: the schema encoder invoked by append_raw with
Schema::Long (ser/writer.rs lines 122-123) lives in ser/encode.rs, which
is not under src/; per spec sections 4.1 and 6 every count and length in
the block framing is zigzag-varint encoded as a long, so a usize k is
encoded as zig_i64 of its i64 bit pattern. -/
def encodeLong (k : Nat) : List Nat :=
  zig_i64 (k % 2 ^ 64)

/-- Block assembly of Writer::extend: the per-value streams (lines
98-110), their concatenation (lines 112-113), compression (line 115), and
the framed block of lines 122-125: zigzag count, zigzag compressed
length, compressed payload, marker. -/
def Writer.extendBlockBytes {S V E : Type} (cfg : Writer S V E) (values : List S) :
    Except (WriterErr E) (List Nat) :=
  match Writer.encodeValues cfg values with
  | Except.error e => Except.error e
  | Except.ok v =>
    match cfg.compress (concatStreams v) with
    | Except.error e => Except.error (WriterErr.codec e)
    | Except.ok stream =>
      Except.ok (encodeLong v.length ++ encodeLong stream.length ++
        stream ++ cfg.marker)

/-- Embedding of Writer::extend (ser/writer.rs lines 80-126).  Any
failure while building the block (serialize, encode, compress) happens
before anything reaches the sink and leaves the state untouched.  On
success, the header is first appended if has_header is still false and
the flag is set (lines 117-120, discarding the byte count returned by
header), then the block is appended and ONLY the block's byte count is
returned (lines 122-125). -/
def Writer.extend {S V E : Type} (cfg : Writer S V E) (values : List S)
    (st : WriterState) : Except (WriterErr E) Nat × WriterState :=
  match Writer.extendBlockBytes cfg values with
  | Except.error e => (Except.error e, st)
  | Except.ok block =>
    let st1 := if st.has_header then st
      else { has_header := true, sink := st.sink ++ Writer.headerBytes cfg }
    (Except.ok block.length, { st1 with sink := st1.sink ++ block })

/-- Truth value of being an error result. -/
def exceptIsErr {E A : Type} : Except E A → Bool
  | Except.error _ => true
  | Except.ok _ => false

/-- A value the batch fails on: the serializer rejects it, or the schema
encoder reports a mismatch on its serialized form. -/
def Writer.failsFor {S V E : Type} (cfg : Writer S V E) (x : S) : Prop :=
  (∃ e, cfg.serialize x = Except.error e) ∨
  (∃ s, cfg.serialize x = Except.ok s ∧ cfg.encode s = none)

/-- Concrete writer over trivial collaborators, used to instantiate the
general writer theorems: every value serializes and encodes to the empty
stream, compression is the null codec, the header parts are the magic of
spec section 6 with an empty metadata map, and an all-zero marker. -/
def cfgDemo : Writer Unit Unit Unit where
  serialize := fun _ => Except.ok ()
  encode := fun _ => some []
  compress := fun s => Except.ok s
  headerMagic := [0x4F, 0x62, 0x6A, 0x01]
  headerMeta := []
  marker := List.replicate 16 0

/-- Concrete writer whose schema encoder rejects every value, driving the
mismatch path of extend. -/
def cfgMismatch : Writer Unit Unit Unit where
  serialize := fun _ => Except.ok ()
  encode := fun _ => none
  compress := fun s => Except.ok s
  headerMagic := [0x4F, 0x62, 0x6A, 0x01]
  headerMeta := []
  marker := List.replicate 16 7

/-- Block bytes an empty batch produces under cfgDemo: zigzag count 0,
zigzag length 0, empty payload, the 16-byte marker. -/
def blkDemo : List Nat :=
  0 :: 0 :: List.replicate 16 0

end Avro

/-- Claim C1: the spec asserts zag_i64 (zig_i64 n) = n for every i64 n
including i64::MIN, and likewise for the 32-bit pair.  The code violates
this: encode_variable treats its argument as a SIGNED i64, so the zigzag
value of i64::MIN (bit pattern 2^63), whose zigzag image is the all-ones
pattern, is emitted as the single byte 0x7F and decodes back to -64
(bit pattern 2^64 - 64); the 32-bit pair likewise sends i32::MAX to 63.
This theorem evaluates the code at both failing inputs. -/
theorem zigzag_roundtrip_fails_at_boundaries :
    zig_i64 (2 ^ 63) = [0x7F] ∧
    zag_i64 (zig_i64 (2 ^ 63)) = Except.ok (2 ^ 64 - 64) ∧
    (2 ^ 64 - 64 : Nat) ≠ 2 ^ 63 ∧
    zag_i32 (zig_i32 (2 ^ 31 - 1)) = Except.ok 63 ∧
    (63 : Nat) ≠ 2 ^ 31 - 1 := by
  refine ⟨rfl, rfl, by decide, rfl, by decide⟩

/-- Claim C2: the spec asserts zig_i32 n = zig_i64 n for every n
representable in 32 bits, in particular at the boundaries.  The code
violates this at n = i32::MAX = 2147483647: zig_i32 computes the zigzag
value in i32 arithmetic, where n << 1 wraps to -2, sign-extends it and
hands a negative i64 to encode_variable, producing the single byte 0x7E,
while zig_i64 produces the five-byte sequence the repository's own
test_zig_i64 records.  This theorem evaluates both encoders there. -/
theorem width_equivalence_fails_at_i32_max :
    zig_i32 (2 ^ 31 - 1) = [0x7E] ∧
    zig_i64 (2 ^ 31 - 1) = [0xFE, 0xFF, 0xFF, 0xFF, 0x0F] ∧
    zig_i32 (2 ^ 31 - 1) ≠ zig_i64 (2 ^ 31 - 1) := by
  refine ⟨rfl, rfl, by decide⟩

/-- Claim C7 counterexample: the claim says decoding the five bytes
0xE1 0xE1 0xE1 0xE1 0xE1 fails with the overflow error, but the reader is
exhausted after the five continuation-flagged bytes (j only reaches 5),
so read_exact fails first: the error is end-of-input, not overflow. -/
theorem decode_0xE1_not_overflow :
    decode_variable [0xE1, 0xE1, 0xE1, 0xE1, 0xE1] ≠
      Except.error DecodeErr.overflow := by
  intro h
  have h2 : DecodeErr.eof = DecodeErr.overflow := by
    have h3 : Except.error (α := Nat) DecodeErr.eof = Except.error DecodeErr.overflow := by
      calc Except.error (α := Nat) DecodeErr.eof
          = decode_variable [0xE1, 0xE1, 0xE1, 0xE1, 0xE1] := rfl
      _ = Except.error DecodeErr.overflow := h
    exact Except.error.inj h3
  cases h2

/-- Claim C7 as amended: decoding the byte sequence
0xE1 0xE1 0xE1 0xE1 0xE1 fails, but with the end-of-input error (the
stream ends while the continuation bit is still set), not the overflow
error: only five continuation groups are consumed, short of the bound. -/
theorem decode_0xE1_fails_eof :
    decode_variable [0xE1, 0xE1, 0xE1, 0xE1, 0xE1] = Except.error DecodeErr.eof := rfl

/-- Claim C8: safe_len returns its argument unchanged whenever it is at
most the effective ceiling and otherwise fails with the AllocationError
carrying the requested length and the ceiling; the state afterwards has
the ceiling installed; with nothing installed the ceiling is the default
512 MiB, under which 42 passes and 1 GiB fails. -/
theorem safe_len_spec (len : Nat) (st : Option Nat) :
    safe_len len st =
      ((if len ≤ ceilingOf st then Except.ok len
        else Except.error ⟨len, ceilingOf st⟩), some (ceilingOf st)) ∧
    ceilingOf none = 512 * 1024 * 1024 ∧
    safe_len 42 none = (Except.ok 42, some (512 * 1024 * 1024)) ∧
    safe_len (1024 * 1024 * 1024) none =
      (Except.error ⟨1024 * 1024 * 1024, 512 * 1024 * 1024⟩,
        some (512 * 1024 * 1024)) := by
  refine ⟨?_, rfl, by decide, by decide⟩
  cases st <;> rfl

/-- Claim C9: the first call of max_allocation_bytes installs its argument
as the ceiling and returns it; every later call, whatever its argument,
leaves the installed ceiling unchanged and returns it. -/
theorem max_allocation_bytes_first_wins (n k m : Nat) :
    max_allocation_bytes n none = (n, some n) ∧
    max_allocation_bytes k (some m) = (m, some m) ∧
    max_allocation_bytes k (max_allocation_bytes n none).2 = (n, some n) := by
  exact ⟨rfl, rfl, rfl⟩

/-- Helper for the overflow bound: once every byte of the prefix pre has
its continuation bit set and the prefix is long enough to drive the group
index j up to 10, the loop fails with overflow, whatever follows pre. -/
theorem decVarGo_all_cont (pre : List Nat) :
    ∀ (bs : List Nat) (i j : Nat), (∀ b ∈ pre, 0x80 ≤ b) → pre.length + j = 10 →
      decVarGo i j (pre ++ bs) = Except.error DecodeErr.overflow := by
  induction pre with
  | nil =>
    intro bs i j _ hj
    simp only [List.length_nil, Nat.zero_add] at hj
    cases bs <;> simp [decVarGo, hj]
  | cons b pre ih =>
    intro bs i j hcont hj
    have hb : 0x80 ≤ b := hcont b (List.mem_cons_self b pre)
    have hj9 : ¬ 9 < j := by
      simp only [List.length_cons] at hj
      omega
    have hdiv : ¬ b / 0x80 = 0 := by
      have hpos : 0 < b / 0x80 := Nat.div_pos hb (by norm_num)
      omega
    simp only [List.cons_append, decVarGo, hj9, if_false, hdiv]
    exact ih bs _ (j + 1) (fun x hx => hcont x (List.mem_cons_of_mem b hx))
      (by simp only [List.length_cons] at hj; omega)

/-- Claim C6: whenever the first ten bytes of the input all carry the
continuation flag (so a clear byte does not appear within the ten-group
bound), decode_variable fails with the overflow DecodeError, and it does
so without ever inspecting a byte beyond those ten: the result is the
same for every continuation of the ten-byte prefix. -/
theorem decode_variable_overflow_bound (bs : List Nat) (h10 : 10 ≤ bs.length)
    (hcont : ∀ b ∈ bs.take 10, 0x80 ≤ b) :
    decode_variable bs = Except.error DecodeErr.overflow ∧
    ∀ rest, decode_variable (bs.take 10 ++ rest) = Except.error DecodeErr.overflow := by
  have hlen : (bs.take 10).length = 10 := by
    simp only [List.length_take]
    omega
  constructor
  · have h1 : decVarGo 0 0 (bs.take 10 ++ bs.drop 10) = Except.error DecodeErr.overflow :=
      decVarGo_all_cont _ _ 0 0 hcont (by omega)
    rw [List.take_append_drop] at h1
    exact h1
  · intro rest
    exact decVarGo_all_cont _ rest 0 0 hcont (by omega)

/-- Witness for C6 at a concrete input: ten 0xE1 bytes overflow, and the
result is unchanged when more bytes follow the ten-byte prefix. -/
theorem decode_variable_overflow_bound_witness :
    decode_variable (List.replicate 10 0xE1) = Except.error DecodeErr.overflow ∧
    decode_variable ((List.replicate 10 0xE1).take 10 ++ [0xE1]) =
      Except.error DecodeErr.overflow :=
  ⟨(decode_variable_overflow_bound (List.replicate 10 0xE1) (by decide) (by decide)).1,
   (decode_variable_overflow_bound (List.replicate 10 0xE1) (by decide) (by decide)).2 [0xE1]⟩

namespace Avro

/-- Helper: a batch with a failing value makes encodeValues fail. -/
theorem encodeValues_error_of_fails {S V E : Type} (cfg : Writer S V E) :
    ∀ vs : List S, (∃ x ∈ vs, Writer.failsFor cfg x) →
      ∃ e, Writer.encodeValues cfg vs = Except.error e := by
  intro vs
  induction vs with
  | nil =>
    rintro ⟨x, hx, -⟩
    exact absurd hx (List.not_mem_nil x)
  | cons y ys ih =>
    rintro ⟨x, hx, hfail⟩
    rcases List.mem_cons.mp hx with heq | hxs
    · subst heq
      rcases hfail with ⟨e, he⟩ | ⟨s, hs, hn⟩
      · exact ⟨WriterErr.ser e, by simp [Writer.encodeValues, he]⟩
      · exact ⟨WriterErr.mismatch, by simp [Writer.encodeValues, hs, hn]⟩
    · cases hser : cfg.serialize y with
      | error e => exact ⟨WriterErr.ser e, by simp [Writer.encodeValues, hser]⟩
      | ok s =>
        cases henc : cfg.encode s with
        | none => exact ⟨WriterErr.mismatch, by simp [Writer.encodeValues, hser, henc]⟩
        | some stream =>
          obtain ⟨e, he⟩ := ih ⟨x, hxs, hfail⟩
          exact ⟨e, by simp [Writer.encodeValues, hser, henc, he]⟩

/-- Helper: an encodeValues failure propagates through block assembly. -/
theorem extendBlockBytes_error_of_fails {S V E : Type} (cfg : Writer S V E)
    (vs : List S) (h : ∃ x ∈ vs, Writer.failsFor cfg x) :
    ∃ e, Writer.extendBlockBytes cfg vs = Except.error e := by
  obtain ⟨e, he⟩ := encodeValues_error_of_fails cfg vs h
  exact ⟨e, by simp [Writer.extendBlockBytes, he]⟩

/-- Helper: a block-assembly failure leaves extend with an error and the
state untouched. -/
theorem extend_error_of_block_error {S V E : Type} (cfg : Writer S V E) (vs : List S)
    (st : WriterState) (e : WriterErr E)
    (h : Writer.extendBlockBytes cfg vs = Except.error e) :
    Writer.extend cfg vs st = (Except.error e, st) := by
  simp [Writer.extend, h]

/-- Claim C4: if any value of the batch fails serialization or schema
encoding, extend returns an error and the writer state is exactly what it
was: no header and no block byte reaches the sink, and the has_header
flag is unchanged, so previously flushed output stands untouched. -/
theorem extend_mismatch_writes_nothing {S V E : Type} (cfg : Writer S V E)
    (vs : List S) (st : WriterState) (h : ∃ x ∈ vs, Writer.failsFor cfg x) :
    exceptIsErr (Writer.extend cfg vs st).1 = true ∧
    (Writer.extend cfg vs st).2 = st := by
  obtain ⟨e, he⟩ := extendBlockBytes_error_of_fails cfg vs h
  rw [extend_error_of_block_error cfg vs st e he]
  exact ⟨rfl, rfl⟩

/-- Witness for C4: under the always-mismatching encoder, extending a
fresh writer whose sink already holds two bytes errors out and leaves the
state exactly as it was. -/
theorem extend_mismatch_writes_nothing_witness :
    exceptIsErr (Writer.extend cfgMismatch [()] ⟨false, [1, 2]⟩).1 = true ∧
    (Writer.extend cfgMismatch [()] ⟨false, [1, 2]⟩).2 = ⟨false, [1, 2]⟩ :=
  extend_mismatch_writes_nothing cfgMismatch [()] ⟨false, [1, 2]⟩
    ⟨(), List.mem_singleton.mpr rfl, Or.inr ⟨(), rfl, rfl⟩⟩

/-- Claim C3 as amended: a successful extend returns only the byte count
of the block it wrote (zigzag count, zigzag length, payload, marker); the
sink grows by the header bytes too when the header was still pending, and
those header bytes are not part of the returned count. -/
theorem extend_returns_block_bytes {S V E : Type} (cfg : Writer S V E)
    (vs : List S) (st : WriterState) (blk : List Nat)
    (hb : Writer.extendBlockBytes cfg vs = Except.ok blk) :
    (Writer.extend cfg vs st).1 = Except.ok blk.length ∧
    (Writer.extend cfg vs st).2.sink.length =
      st.sink.length +
        (if st.has_header then 0 else (Writer.headerBytes cfg).length) + blk.length := by
  constructor
  · simp [Writer.extend, hb]
  · cases hsh : st.has_header
    · simp [Writer.extend, hb, hsh]
      omega
    · simp [Writer.extend, hb, hsh]

/-- Witness for the amended C3 at the concrete demo writer. -/
theorem extend_returns_block_bytes_witness :
    (Writer.extend cfgDemo ([] : List Unit) ⟨false, []⟩).1 = Except.ok blkDemo.length ∧
    (Writer.extend cfgDemo ([] : List Unit) ⟨false, []⟩).2.sink.length =
      ([] : List Nat).length +
        (if (false : Bool) then 0 else (Writer.headerBytes cfgDemo).length) +
        blkDemo.length :=
  extend_returns_block_bytes cfgDemo [] ⟨false, []⟩ blkDemo rfl

/-- Claim C3 counterexample: on a fresh demo writer an empty batch makes
extend write the 20 header bytes and the 18 block bytes, 38 bytes in all,
yet return 18: the returned count is not the total number of bytes
written during the call, contrary to the claim. -/
theorem extend_return_counts_block_only_example :
    (Writer.extend cfgDemo ([] : List Unit) ⟨false, []⟩).1 = Except.ok 18 ∧
    (Writer.extend cfgDemo ([] : List Unit) ⟨false, []⟩).2.sink.length = 38 ∧
    (18 : Nat) ≠ 38 := by
  refine ⟨rfl, rfl, by decide⟩

/-- Claim C5: on a writer whose header is still pending, a successful
extend emits the header exactly once, immediately before the block, and
leaves the flag permanently true; on any writer whose flag is already
true, a successful extend appends only its block and keeps the flag. -/
theorem extend_header_once {S V E : Type} (cfg : Writer S V E) (vs1 vs2 : List S)
    (st stAfter : WriterState) (h : st.has_header = false)
    (h2 : stAfter.has_header = true) (blk1 blk2 : List Nat)
    (hb1 : Writer.extendBlockBytes cfg vs1 = Except.ok blk1)
    (hb2 : Writer.extendBlockBytes cfg vs2 = Except.ok blk2) :
    Writer.extend cfg vs1 st =
      (Except.ok blk1.length, ⟨true, st.sink ++ Writer.headerBytes cfg ++ blk1⟩) ∧
    Writer.extend cfg vs2 stAfter =
      (Except.ok blk2.length, ⟨true, stAfter.sink ++ blk2⟩) := by
  constructor
  · simp [Writer.extend, hb1, h]
  · simp [Writer.extend, hb2, h2]

/-- Witness for C5: the first call on a fresh demo writer emits header
then block and sets the flag; a call on a flag-true writer appends only
its block. -/
theorem extend_header_once_witness :
    Writer.extend cfgDemo ([] : List Unit) ⟨false, []⟩ =
      (Except.ok blkDemo.length,
        ⟨true, ([] : List Nat) ++ Writer.headerBytes cfgDemo ++ blkDemo⟩) ∧
    Writer.extend cfgDemo ([] : List Unit) ⟨true, [5]⟩ =
      (Except.ok blkDemo.length, ⟨true, [5] ++ blkDemo⟩) :=
  extend_header_once cfgDemo [] [] ⟨false, []⟩ ⟨true, [5]⟩ rfl rfl blkDemo blkDemo rfl rfl

/-- Claim C10: the public header operation never mutates the has_header
flag, so on a fresh writer an explicit header call followed by a first
successful extend puts the full header byte sequence in the sink twice,
once from each path, before the block. -/
theorem header_does_not_set_flag {S V E : Type} (cfg : Writer S V E)
    (stAny st : WriterState) (h : st.has_header = false) (vs : List S)
    (blk : List Nat) (hb : Writer.extendBlockBytes cfg vs = Except.ok blk) :
    (Writer.header cfg stAny).2.has_header = stAny.has_header ∧
    Writer.extend cfg vs (Writer.header cfg st).2 =
      (Except.ok blk.length,
        ⟨true, st.sink ++ Writer.headerBytes cfg ++ Writer.headerBytes cfg ++ blk⟩) := by
  constructor
  · rfl
  · simp [Writer.header, Writer.extend, hb, h]

/-- Witness for C10: on the demo writer, header then extend yields the
header bytes twice followed by the block. -/
theorem header_does_not_set_flag_witness :
    (Writer.header cfgDemo ⟨true, [3]⟩).2.has_header = true ∧
    Writer.extend cfgDemo ([] : List Unit) (Writer.header cfgDemo ⟨false, [9]⟩).2 =
      (Except.ok blkDemo.length,
        ⟨true, [9] ++ Writer.headerBytes cfgDemo ++ Writer.headerBytes cfgDemo ++ blkDemo⟩) :=
  header_does_not_set_flag cfgDemo ⟨true, [3]⟩ ⟨false, [9]⟩ rfl [] blkDemo rfl

end Avro
